import Mathlib

/-!
Shallow embedding of `src/bot.py` (a Discord dice-roll bot) and proofs about
its outcome model, config store, command layer and reaction handler.

Randomness is modelled by passing the value returned by
`secrets.randbelow(100)` as an explicit parameter.  Fallible operations
return `Option`/`Except`; a `none` result models a raised Python exception.
Side effects of the Discord client (direct messages, channel posts, reaction
removal) are reified as an explicit effect list, and persistence
(`save_config`) as a save counter on the store.
-/

namespace DiceBot

/-- A Python value as far as the bot's config dictionaries are concerned:
a string, an int, or anything else (`other`). -/
inductive PyVal where
  | str : String → PyVal
  | int : Int → PyVal
  | other : PyVal
deriving DecidableEq, Repr

/-- One outcome dictionary `{"name": ..., "weight": ...}`.  Either key may be
absent (`none`) or bound to a value of the wrong type, exactly the situations
`validate_outcomes` tests for. -/
structure OutcomeDict where
  name : Option PyVal
  weight : Option PyVal
deriving DecidableEq, Repr

/-- The well-formed outcome dictionary `{"name": n, "weight": w}` built by
`setodds` and by `default_guild_config`. -/
def mkOutcome (n : String) (w : Int) : OutcomeDict :=
  { name := some (PyVal.str n), weight := some (PyVal.int w) }

/-- Models Python `str.strip()` (ASCII whitespace suffices for this code):
drop whitespace from both ends of the character list. -/
def pyStrip (s : String) : String :=
  String.mk (((s.data.dropWhile Char.isWhitespace).reverse.dropWhile
    Char.isWhitespace).reverse)

/-- The per-entry checks of the `for o in outcomes:` loop of
`validate_outcomes`, in source order: missing key, then name type/emptiness,
then weight type/sign.  `some msg` is the error message returned, `none`
means the entry passes. -/
def check_entry (o : OutcomeDict) : Option String :=
  match o.name, o.weight with
  | none, _ => some "Each outcome must have \x27name\x27 and \x27weight\x27."
  | _, none => some "Each outcome must have \x27name\x27 and \x27weight\x27."
  | some nv, some wv =>
    match nv with
    | PyVal.str s =>
      if pyStrip s = "" then some "Outcome name must be a non-empty string."
      else
        match wv with
        | PyVal.int w =>
          if w < 0 then some "Outcome weight must be a non-negative integer." else none
        | _ => some "Outcome weight must be a non-negative integer."
    | _ => some "Outcome name must be a non-empty string."

/-- An entry passes all per-entry checks of `validate_outcomes`. -/
def entry_ok (o : OutcomeDict) : Bool := (check_entry o).isNone

/-- The integer bound to `"weight"`; only meaningful on entries where
`check_entry` passed (as in the source, which reads `o["weight"]` after the
checks). -/
def entry_weight (o : OutcomeDict) : Int :=
  match o.weight with
  | some (PyVal.int w) => w
  | _ => 0

/-- The string bound to `"name"`; only meaningful on well-formed entries. -/
def entry_name (o : OutcomeDict) : String :=
  match o.name with
  | some (PyVal.str s) => s
  | _ => ""

/-- Sum of the weights of a list of entries (the final value of `total`). -/
def sumW (l : List OutcomeDict) : Int := (l.map entry_weight).sum

/-- The error message for a weight total different from 100. -/
def mismatchMsg (total : Int) : String :=
  "Outcome weights must total 100 (currently " ++ toString total ++ ")."

/-- The loop of `validate_outcomes`, carrying the running `total`; after the
loop, the `total != 100` check. -/
def validate_go (total : Int) : List OutcomeDict → Bool × String
  | [] => if total ≠ 100 then (false, mismatchMsg total) else (true, "OK")
  | o :: rest =>
    match check_entry o with
    | some msg => (false, msg)
    | none => validate_go (total + entry_weight o) rest

/-- `validate_outcomes` from `src/bot.py` lines 68-82. -/
def validate_outcomes (outcomes : List OutcomeDict) : Bool × String :=
  if outcomes = [] then (false, "You must provide at least one outcome.")
  else validate_go 0 outcomes

/-- `roll_d100` from `src/bot.py` lines 88-89: `secrets.randbelow(100) + 1`,
with the sample `s` drawn by `randbelow` passed explicitly. -/
def roll_d100 (s : Nat) : Nat := s + 1

/-- The `for o in outcomes:` loop of `weighted_choice`, carrying `cumulative`;
returns the name of the first entry with `r < cumulative`, or `none` if the
loop finishes without returning. -/
def wc_loop (r : Int) : Int → List OutcomeDict → Option String
  | _, [] => none
  | cumulative, o :: rest =>
    let c := cumulative + entry_weight o
    if r < c then some (entry_name o) else wc_loop r c rest

/-- `weighted_choice` from `src/bot.py` lines 92-99, with the sample
`r = secrets.randbelow(100)` passed explicitly.  The trailing
`return outcomes[-1]["name"]` is the fallback; on an empty list it raises
`IndexError`, modelled by the `none` result. -/
def weighted_choice (outcomes : List OutcomeDict) (r : Int) : Option String :=
  match wc_loop r 0 outcomes with
  | some n => some n
  | none => (outcomes.getLast?).map entry_name

/-- The two independent draws of the dispatch path of `on_raw_reaction_add`
(`d100 = roll_d100()`; `outcome = weighted_choice(gconf["outcomes"])`),
with the two `randbelow` samples passed explicitly. -/
def dispatch_roll (outcomes : List OutcomeDict) (s1 s2 : Nat) : Nat × Option String :=
  (roll_d100 s1, weighted_choice outcomes ((s2 : Int)))

/-- Cumulative weight strictly before entry `i` (the value of `cumulative`
when the loop reaches entry `i` starting from 0). -/
def cumBefore (l : List OutcomeDict) (i : Nat) : Int :=
  ((l.take i).map entry_weight).sum

/-- One guild's configuration record (the dict built by
`default_guild_config` and mutated by the commands). -/
structure GuildConfig where
  trigger_emoji : String
  trigger_message_id : Option Int
  trigger_channel_id : Option Int
  mod_channel_id : Option Int
  outcomes : List OutcomeDict
deriving DecidableEq, Repr

/-- `default_guild_config` from `src/bot.py` lines 39-57. -/
def default_guild_config : GuildConfig :=
  { trigger_emoji := "🎲"
    trigger_message_id := none
    trigger_channel_id := none
    mod_channel_id := none
    outcomes :=
      [ mkOutcome "powers, curse" 25
      , mkOutcome "powers, blessing" 25
      , mkOutcome "no powers" 50 ] }

/-- `guild_key`: `str(guild_id)`. -/
def guild_key (guild_id : Int) : String := toString guild_id

/-- Dictionary lookup `cfg[k]` / `k in cfg` on the config mapping. -/
def lookupCfg (k : String) : List (String × GuildConfig) → Option GuildConfig
  | [] => none
  | (k₂, g) :: rest => if k₂ = k then some g else lookupCfg k rest

/-- Dictionary assignment `cfg[k] = g` (in-place update, inserting at the end
when the key is new, as a Python dict does). -/
def updateCfg (k : String) (g : GuildConfig) :
    List (String × GuildConfig) → List (String × GuildConfig)
  | [] => [(k, g)]
  | (k₂, g₂) :: rest =>
    if k₂ = k then (k, g) :: rest else (k₂, g₂) :: updateCfg k g rest

/-- The in-memory config mapping plus a count of `save_config` calls
(each call is one whole-file write of the JSON store). -/
structure Store where
  cfg : List (String × GuildConfig)
  saves : Nat
deriving Repr

/-- `get_guild_config` from `src/bot.py` lines 60-65: return the existing
record, or insert a default one, persist, and return it. -/
def get_guild_config (st : Store) (guild_id : Int) : GuildConfig × Store :=
  let k := guild_key guild_id
  match lookupCfg k st.cfg with
  | some g => (g, st)
  | none =>
    (default_guild_config,
     { cfg := updateCfg k default_guild_config st.cfg, saves := st.saves + 1 })

/-- Models Python `str.isdigit()` for ASCII digit strings. -/
def pyIsdigit (s : String) : Bool := !s.data.isEmpty && s.data.all Char.isDigit

/-- The numeric value of an all-digit string, as Python `int()` computes it. -/
def digitsToNat (l : List Char) : Nat :=
  l.foldl (fun acc c => acc * 10 + (c.toNat - 48)) 0

/-- Models Python `int(s)` on a decimal string (optional leading minus);
`none` models the `ValueError` branch. -/
def pyIntParse (s : String) : Option Int :=
  match s.data with
  | [] => none
  | '-' :: rest =>
    if !rest.isEmpty && rest.all Char.isDigit then
      some (-(digitsToNat rest : Int))
    else none
  | l => if l.all Char.isDigit then some ((digitsToNat l : Int)) else none

/-- Character-list splitter behind `pySplit`. -/
def splitCharAux (sep : Char) : List Char → List Char → List (List Char)
  | [], acc => [acc.reverse]
  | c :: rest, acc =>
    if c = sep then acc.reverse :: splitCharAux sep rest []
    else splitCharAux sep rest (c :: acc)

/-- Models Python `s.split(sep)` for a one-character separator
(`"".split(sep)` gives `[""]`, like Python). -/
def pySplit (s : String) (sep : Char) : List String :=
  (splitCharAux sep s.data []).map String.mk

/-- Character-list splitter behind `splitFirstEq`. -/
def splitFirstAux (sep : Char) : List Char → List Char → List Char × List Char
  | [], acc => (acc.reverse, [])
  | c :: rest, acc =>
    if c = sep then (acc.reverse, rest) else splitFirstAux sep rest (c :: acc)

/-- `p.split("=", 1)`: split at the first `=` only. -/
def splitFirstEq (p : String) : String × String :=
  let r := splitFirstAux '=' p.data []
  (String.mk r.1, String.mk r.2)

/-- The parsing loop of `setodds` (`src/bot.py` lines 175-185): strip and
drop empty `;`-separated parts, then for each part require an `=`, split
once, strip name and weight, require the weight to be all digits.
`Except.error` carries the ephemeral error reply. -/
def parse_odds_go : List String → Except String (List OutcomeDict)
  | [] => Except.ok []
  | p :: rest =>
    if !(p.data.contains '=') then
      Except.error "❌ Bad format. Use: name=weight; ..."
    else
      let nw := splitFirstEq p
      let name := pyStrip nw.1
      let weight_str := pyStrip nw.2
      if !(pyIsdigit weight_str) then
        Except.error ("❌ Weight must be an integer: `" ++ p ++ "`")
      else
        match parse_odds_go rest with
        | Except.error e => Except.error e
        | Except.ok parsed =>
          Except.ok (mkOutcome name ((digitsToNat weight_str.data : Int)) :: parsed)

/-- `parts = [p.strip() for p in odds.split(";") if p.strip()]` followed by
the parsing loop. -/
def parse_odds (odds : String) : Except String (List OutcomeDict) :=
  parse_odds_go (((pySplit odds ';').map pyStrip).filter (fun p => p ≠ ""))

/-- The `✅ Odds updated` pretty listing of `setodds`. -/
def prettyOdds (parsed : List OutcomeDict) : String :=
  String.intercalate "\n"
    (parsed.map (fun o =>
      "- **" ++ entry_name o ++ "**: " ++ toString (entry_weight o) ++ "%"))

/-- `setodds` from `src/bot.py` lines 169-196 as a state transition on the
store: guild/permission gate, parse, validate, and only then
`get_guild_config`, replace `outcomes` wholesale and `save_config`.
Returns the new store and the ephemeral reply. -/
def setodds (guild : Option Int) (caller_is_mod : Bool) (st : Store)
    (odds : String) : Store × String :=
  match guild with
  | none => (st, "Use this in a server.")
  | some gid =>
    if !caller_is_mod then
      (st, "You need Manage Messages (or Admin) to do this.")
    else
      match parse_odds odds with
      | Except.error e => (st, e)
      | Except.ok parsed =>
        let vr := validate_outcomes parsed
        if !vr.1 then (st, "❌ " ++ vr.2)
        else
          let gr := get_guild_config st gid
          let g := { gr.1 with outcomes := parsed }
          ({ cfg := updateCfg (guild_key gid) g gr.2.cfg, saves := gr.2.saves + 1 },
           "✅ Odds updated:\n" ++ prettyOdds parsed)

/-- A Discord message, as far as `editrolllog` and reaction removal need:
its author and content. -/
structure Message where
  author_id : Int
  content : String
deriving DecidableEq, Repr

/-- The Discord client as seen by the bot: which guilds `bot.get_guild`
resolves, guild names, member lookup, which channel ids resolve to a
`TextChannel` in a guild, whether a user accepts direct messages, and
`fetch_message` per channel. -/
structure Env where
  bot_user_id : Int
  guilds : Int → Bool
  guild_name : Int → String
  member : Int → Int → Bool
  channel : Int → Int → Bool
  dm_ok : Int → Bool
  fetch_msg : Int → Int → Option Message

/-- A raw reaction-add payload: `str(payload.emoji)` is carried as the
rendered emoji text. -/
structure Payload where
  user_id : Int
  guild_id : Option Int
  channel_id : Int
  message_id : Int
  emoji : String
deriving DecidableEq, Repr

/-- An outward side effect of the reaction handler. -/
inductive Effect where
  | dm : Int → String → Effect
  | modlog : Int → String → Effect
  | removeReaction : Int → Int → String → Int → Effect
deriving DecidableEq, Repr

/-- Python truthiness of an optional integer field: `None` and `0` are
falsy. -/
def truthyId : Option Int → Bool
  | none => false
  | some n => n ≠ 0

/-- `bot.get_guild(payload.guild_id) if payload.guild_id else None`:
the guild id must be present, truthy, and resolvable. -/
def guildResolve (env : Env) (gid : Option Int) : Option Int :=
  match gid with
  | none => none
  | some g => if g ≠ 0 && env.guilds g then some g else none

/-- The direct message sent to the roller. -/
def dm_text (d100 : Nat) (outcome emoji gname : String) : String :=
  "🎲 **Your roll:** " ++ toString d100 ++ "/100\n" ++
  "✨ **Outcome:** " ++ outcome ++ "\n\n" ++
  "(Triggered by reacting with " ++ emoji ++ " in **" ++ gname ++ "**.)"

/-- The moderator-log post. -/
def log_text (user_id : Int) (d100 : Nat) (outcome : String) (dm_delivered : Bool)
    (trigger_message_id trigger_channel_id : Int) : String :=
  "📋 **Roll Log**\n" ++
  "User: <@" ++ toString user_id ++ "> (`" ++ toString user_id ++ "`)\n" ++
  "Roll: **" ++ toString d100 ++ "**/100\n" ++
  "Outcome: **" ++ outcome ++ "**\n" ++
  "DM delivered: " ++ (if dm_delivered then "✅" else "❌ (user has DMs closed?)") ++ "\n" ++
  "Trigger message: `" ++ toString trigger_message_id ++ "` in <#" ++
    toString trigger_channel_id ++ ">"

/-- `on_raw_reaction_add` from `src/bot.py` lines 284-343.  `s1`, `s2` are
the two `randbelow(100)` samples of `roll_d100` and `weighted_choice`.
Returns the store after the handler and the list of outward side effects
(a `weighted_choice` failure, possible only on an empty outcome table,
raises before any effect, so it yields the empty effect list). -/
def on_raw_reaction_add (env : Env) (st : Store) (p : Payload) (s1 s2 : Nat) :
    Store × List Effect :=
  if p.user_id = env.bot_user_id then (st, [])
  else
    match guildResolve env p.guild_id with
    | none => (st, [])
    | some gid =>
      let gr := get_guild_config st gid
      let g := gr.1
      let st1 := gr.2
      if !truthyId g.trigger_message_id || !truthyId g.trigger_channel_id then
        (st1, [])
      else if some p.message_id ≠ g.trigger_message_id
          || some p.channel_id ≠ g.trigger_channel_id then
        (st1, [])
      else if p.emoji ≠ g.trigger_emoji then (st1, [])
      else
        let roll := dispatch_roll g.outcomes s1 s2
        match roll.2 with
        | none => (st1, [])
        | some outcome =>
          let delivered := env.dm_ok p.user_id
          let dmE := Effect.dm p.user_id
            (dm_text roll.1 outcome g.trigger_emoji (env.guild_name gid))
          let logE :=
            if truthyId g.mod_channel_id
                && env.channel gid (g.mod_channel_id.getD 0) then
              [Effect.modlog (g.mod_channel_id.getD 0)
                (log_text p.user_id roll.1 outcome delivered
                  (g.trigger_message_id.getD 0) (g.trigger_channel_id.getD 0))]
            else []
          let remE :=
            if env.channel gid p.channel_id
                && (env.fetch_msg p.channel_id p.message_id).isSome then
              [Effect.removeReaction p.channel_id p.message_id p.emoji p.user_id]
            else []
          (st1, dmE :: (logE ++ remE))

/-- `editrolllog` from `src/bot.py` lines 249-278: guild/permission gate,
mod-channel configured and resolvable, numeric message id, message found,
authored by the bot itself; only then edit.  The middle component is the
edit performed (`none` when the target message is left unmodified), the
last the ephemeral reply. -/
def editrolllog (env : Env) (guild : Option Int) (caller_is_mod : Bool)
    (st : Store) (message_id new_text : String) :
    Store × Option (Int × String) × String :=
  match guild with
  | none => (st, none, "Use this in a server.")
  | some gid =>
    if !caller_is_mod then
      (st, none, "You need Manage Messages (or Admin) to do this.")
    else
      let gr := get_guild_config st gid
      let g := gr.1
      let st1 := gr.2
      if !truthyId g.mod_channel_id then
        (st1, none, "❌ Mod channel is not set. Use /setmodchannel.")
      else
        let mc := g.mod_channel_id.getD 0
        if !(env.channel gid mc) then (st1, none, "❌ Mod channel not found.")
        else
          match pyIntParse message_id with
          | none => (st1, none, "❌ message_id must be a number.")
          | some mid =>
            match env.fetch_msg mc mid with
            | none =>
              (st1, none, "❌ That message ID wasn\x27t found in the mod channel.")
            | some m =>
              if m.author_id ≠ env.bot_user_id then
                (st1, none, "❌ I can only edit my own log messages.")
              else (st1, some (mid, new_text), "✅ Edited the roll log message.")

/-- A well-formed entry in the sense of the spec: a string name that is
non-empty after stripping, and a non-negative integer weight. -/
def WFEntry (o : OutcomeDict) : Prop :=
  ∃ s k, o.name = some (PyVal.str s) ∧ o.weight = some (PyVal.int k) ∧
    pyStrip s ≠ "" ∧ 0 ≤ k

/-- The three-outcome example table `[{A,25},{B,25},{C,50}]` of the spec's
testable properties. -/
def exampleABC : List OutcomeDict :=
  [mkOutcome "A" 25, mkOutcome "B" 25, mkOutcome "C" 50]

/-! ### Helper lemmas -/

lemma check_entry_none_iff (o : OutcomeDict) :
    check_entry o = none ↔ WFEntry o := by
  obtain ⟨n, w⟩ := o
  unfold WFEntry
  constructor
  · intro h
    cases n with
    | none => simp [check_entry] at h
    | some nv =>
      cases w with
      | none => cases nv <;> simp [check_entry] at h
      | some wv =>
        cases nv with
        | str s =>
          cases wv with
          | int k =>
            simp only [check_entry] at h
            split_ifs at h with h1 h2
            exact ⟨s, k, rfl, rfl, h1, by omega⟩
          | str t =>
            simp only [check_entry] at h
            split_ifs at h
          | other =>
            simp only [check_entry] at h
            split_ifs at h
        | int m => simp [check_entry] at h
        | other => simp [check_entry] at h
  · rintro ⟨s, k, hn, hw, hs, hk⟩
    subst hn; subst hw
    simp only [check_entry]
    rw [if_neg hs, if_neg (by omega)]

lemma sumW_nil : sumW [] = 0 := rfl

lemma sumW_cons (o : OutcomeDict) (l : List OutcomeDict) :
    sumW (o :: l) = entry_weight o + sumW l := by
  simp [sumW]

lemma WFEntry_weight_nonneg (o : OutcomeDict) (h : WFEntry o) :
    0 ≤ entry_weight o := by
  obtain ⟨s, k, hn, hw, _, hk⟩ := h
  simp [entry_weight, hw, hk]

lemma validate_go_eq (l : List OutcomeDict) :
    ∀ total : Int, (∀ o ∈ l, WFEntry o) →
    validate_go total l =
      if total + sumW l ≠ 100 then (false, mismatchMsg (total + sumW l))
      else (true, "OK") := by
  induction l with
  | nil => intro total _; simp [validate_go, sumW_nil]
  | cons o rest ih =>
    intro total h
    have ho : check_entry o = none :=
      (check_entry_none_iff o).mpr (h o (List.mem_cons_self o rest))
    have hr : ∀ o₂ ∈ rest, WFEntry o₂ := fun o₂ hm => h o₂ (List.mem_cons_of_mem o hm)
    simp only [validate_go, ho]
    rw [ih (total + entry_weight o) hr, sumW_cons]
    have hadd : total + entry_weight o + sumW rest
        = total + (entry_weight o + sumW rest) := by ring
    rw [hadd]

lemma validate_go_true (l : List OutcomeDict) :
    ∀ total : Int, (validate_go total l).1 = true →
    (∀ o ∈ l, WFEntry o) ∧ total + sumW l = 100 := by
  induction l with
  | nil =>
    intro total h
    simp only [validate_go] at h
    constructor
    · intro o hm; cases hm
    · rw [sumW_nil]
      by_contra hne
      rw [if_pos (by omega)] at h
      simp at h
  | cons o rest ih =>
    intro total h
    simp only [validate_go] at h
    cases hc : check_entry o with
    | some msg => rw [hc] at h; simp at h
    | none =>
      rw [hc] at h
      obtain ⟨hall, hsum⟩ := ih (total + entry_weight o) h
      refine ⟨?_, ?_⟩
      · intro o₂ hm
        rcases List.mem_cons.mp hm with h₂ | h₂
        · rw [h₂]; exact (check_entry_none_iff o).mp hc
        · exact hall o₂ h₂
      · rw [sumW_cons]; omega

lemma wc_loop_none (r : Int) (l : List OutcomeDict) (hne : l ≠ []) :
    ∀ c : Int, wc_loop r c l = none → c + sumW l ≤ r := by
  induction l with
  | nil => exact absurd rfl hne
  | cons o rest ih =>
    intro c h
    simp only [wc_loop] at h
    split_ifs at h with hlt
    push_neg at hlt
    rw [sumW_cons]
    cases rest with
    | nil =>
      rw [sumW_nil]
      omega
    | cons o₂ r₂ =>
      have hrec := ih (by simp) (c + entry_weight o) h
      omega

lemma wc_loop_mem (r : Int) (l : List OutcomeDict) (n : String) :
    ∀ c : Int, wc_loop r c l = some n → ∃ o ∈ l, n = entry_name o := by
  induction l with
  | nil => intro c h; simp [wc_loop] at h
  | cons o rest ih =>
    intro c h
    simp only [wc_loop] at h
    split_ifs at h with hlt
    · exact ⟨o, List.mem_cons_self o rest, (Option.some_injective _ h).symm⟩
    · obtain ⟨o₂, hm, he⟩ := ih (c + entry_weight o) h
      exact ⟨o₂, List.mem_cons_of_mem o hm, he⟩

lemma lookupCfg_updateCfg_self (k : String) (g : GuildConfig)
    (l : List (String × GuildConfig)) :
    lookupCfg k (updateCfg k g l) = some g := by
  induction l with
  | nil => simp [updateCfg, lookupCfg]
  | cons p rest ih =>
    obtain ⟨k₂, g₂⟩ := p
    by_cases h : k₂ = k
    · simp [updateCfg, lookupCfg, h]
    · simp [updateCfg, lookupCfg, h, ih]

lemma lookupCfg_updateCfg_ne (k k₂ : String) (g : GuildConfig)
    (l : List (String × GuildConfig)) (h : k₂ ≠ k) :
    lookupCfg k₂ (updateCfg k g l) = lookupCfg k₂ l := by
  have hne : ¬(k = k₂) := fun he => h he.symm
  induction l with
  | nil =>
    simp only [updateCfg, lookupCfg]
    rw [if_neg hne]
  | cons p rest ih =>
    obtain ⟨k₃, g₃⟩ := p
    by_cases h₃ : k₃ = k
    · subst h₃
      simp only [updateCfg, if_pos rfl, lookupCfg]
      rw [if_neg hne, if_neg hne]
    · simp only [updateCfg, if_neg h₃, lookupCfg]
      by_cases h₄ : k₃ = k₂
      · simp [h₄]
      · simp [h₄, ih]

lemma mismatchMsg_ne_empty (total : Int) : mismatchMsg total ≠ "" := by
  intro h
  have hl := congrArg String.length h
  simp only [mismatchMsg, String.length_append] at hl
  have h₁ : 0 < ("Outcome weights must total 100 (currently ").length := by decide
  have h₂ : ("").length = 0 := rfl
  omega

lemma check_entry_some_ne_empty (o : OutcomeDict) (msg : String)
    (h : check_entry o = some msg) : msg ≠ "" := by
  obtain ⟨n, w⟩ := o
  cases n with
  | none =>
    simp only [check_entry] at h
    rw [← Option.some_inj.mp h]
    decide
  | some nv =>
    cases w with
    | none =>
      cases nv <;>
        (simp only [check_entry] at h; rw [← Option.some_inj.mp h]; decide)
    | some wv =>
      cases nv with
      | str s =>
        cases wv with
        | int k =>
          simp only [check_entry] at h
          split_ifs at h <;> (rw [← Option.some_inj.mp h]; decide)
        | str t =>
          simp only [check_entry] at h
          split_ifs at h <;> (rw [← Option.some_inj.mp h]; decide)
        | other =>
          simp only [check_entry] at h
          split_ifs at h <;> (rw [← Option.some_inj.mp h]; decide)
      | int m =>
        simp only [check_entry] at h
        rw [← Option.some_inj.mp h]; decide
      | other =>
        simp only [check_entry] at h
        rw [← Option.some_inj.mp h]; decide

lemma validate_go_snd_ne_empty (l : List OutcomeDict) :
    ∀ total : Int, (validate_go total l).2 ≠ "" := by
  induction l with
  | nil =>
    intro total
    simp only [validate_go]
    split_ifs
    · exact mismatchMsg_ne_empty total
    · decide
  | cons o rest ih =>
    intro total
    simp only [validate_go]
    cases hc : check_entry o with
    | some msg => exact check_entry_some_ne_empty o msg hc
    | none => exact ih (total + entry_weight o)

lemma cumBefore_nonneg (l : List OutcomeDict) (i : Nat)
    (hw : ∀ o ∈ l, 0 ≤ entry_weight o) : 0 ≤ cumBefore l i := by
  unfold cumBefore
  apply List.sum_nonneg
  intro x hx
  simp only [List.mem_map] at hx
  obtain ⟨o, ho, rfl⟩ := hx
  exact hw o (List.take_subset i l ho)

lemma wc_loop_interval (l : List OutcomeDict) :
    ∀ (c r : Int) (i : Nat) (hi : i < l.length),
    (∀ o ∈ l, 0 ≤ entry_weight o) →
    c + cumBefore l i ≤ r →
    r < c + cumBefore l i + entry_weight (l.get ⟨i, hi⟩) →
    wc_loop r c l = some (entry_name (l.get ⟨i, hi⟩)) := by
  induction l with
  | nil => intro c r i hi; simp at hi
  | cons o rest ih =>
    intro c r i hi hw hlo hhi
    cases i with
    | zero =>
      simp only [cumBefore, List.take_zero, List.map_nil, List.sum_nil, add_zero,
        List.get] at hlo hhi ⊢
      simp only [wc_loop]
      rw [if_pos (by omega)]
    | succ j =>
      have hj : j < rest.length := by simpa using hi
      have hcb : cumBefore (o :: rest) (j + 1)
          = entry_weight o + cumBefore rest j := by
        simp [cumBefore, List.take_succ_cons]
      have hwr : ∀ o₂ ∈ rest, 0 ≤ entry_weight o₂ :=
        fun o₂ hm => hw o₂ (List.mem_cons_of_mem o hm)
      have hnn : 0 ≤ cumBefore rest j := cumBefore_nonneg rest j hwr
      have hget : (o :: rest).get ⟨j + 1, hi⟩ = rest.get ⟨j, hj⟩ := rfl
      rw [hcb] at hlo hhi
      rw [hget] at hhi ⊢
      simp only [wc_loop]
      rw [if_neg (by omega)]
      exact ih (c + entry_weight o) r j hj hwr (by omega) (by omega)

lemma handler_effects_inversion (env : Env) (st : Store) (p : Payload)
    (s1 s2 : Nat) (h : (on_raw_reaction_add env st p s1 s2).2 ≠ []) :
    ¬(p.user_id = env.bot_user_id) ∧
    ∃ gid, guildResolve env p.guild_id = some gid ∧
      ∃ g, lookupCfg (guild_key gid) st.cfg = some g ∧
        truthyId g.trigger_message_id = true ∧
        truthyId g.trigger_channel_id = true ∧
        some p.message_id = g.trigger_message_id ∧
        some p.channel_id = g.trigger_channel_id ∧
        p.emoji = g.trigger_emoji := by
  unfold on_raw_reaction_add at h
  by_cases hbot : p.user_id = env.bot_user_id
  · rw [if_pos hbot] at h; simp at h
  · rw [if_neg hbot] at h
    refine ⟨hbot, ?_⟩
    cases hgr : guildResolve env p.guild_id with
    | none => rw [hgr] at h; simp at h
    | some gid =>
      rw [hgr] at h
      refine ⟨gid, rfl, ?_⟩
      cases hlk : lookupCfg (guild_key gid) st.cfg with
      | none =>
        simp only [get_guild_config, hlk] at h
        simp [default_guild_config, truthyId] at h
      | some g =>
        simp only [get_guild_config, hlk] at h
        refine ⟨g, rfl, ?_⟩
        by_cases c1 : (!truthyId g.trigger_message_id
            || !truthyId g.trigger_channel_id) = true
        · rw [if_pos c1] at h; simp at h
        · rw [if_neg c1] at h
          by_cases c2 : (decide (some p.message_id ≠ g.trigger_message_id)
              || decide (some p.channel_id ≠ g.trigger_channel_id)) = true
          · rw [if_pos c2] at h; simp at h
          · rw [if_neg c2] at h
            by_cases c3 : p.emoji ≠ g.trigger_emoji
            · rw [if_pos c3] at h; simp at h
            · simp only [Bool.or_eq_true, Bool.not_eq_true', not_or,
                Bool.not_eq_false] at c1
              simp only [Bool.or_eq_true, decide_eq_true_eq, not_or,
                not_not] at c2
              rw [not_not] at c3
              exact ⟨c1.1, c1.2, c2.1, c2.2, c3⟩

/-! ### Claim theorems -/

/-- C2: `validate_outcomes` rejects the empty list with a reason; it reports
`true` exactly for a non-empty list of well-formed entries (string name,
non-empty after stripping, non-negative integer weight) whose weights sum to
exactly 100; on an all-well-formed list with a wrong total it reports the
actual total in the reason; acceptance of a well-formed list summing to 100
does not depend on its length; and every reply carries a non-empty
human-readable message.  The boolean result is all-or-nothing: there is no
partial acceptance. -/
theorem C2_validate_outcomes :
    (validate_outcomes [] = (false, "You must provide at least one outcome.")) ∧
    (∀ l : List OutcomeDict,
      ((validate_outcomes l).1 = true ↔
        (l ≠ [] ∧ (∀ o ∈ l, WFEntry o) ∧ sumW l = 100))) ∧
    (∀ l : List OutcomeDict, l ≠ [] → (∀ o ∈ l, WFEntry o) → sumW l ≠ 100 →
      validate_outcomes l = (false, mismatchMsg (sumW l))) ∧
    (∀ l : List OutcomeDict, l ≠ [] → (∀ o ∈ l, WFEntry o) → sumW l = 100 →
      validate_outcomes l = (true, "OK")) ∧
    (∀ l : List OutcomeDict, (validate_outcomes l).2 ≠ "") := by
  refine ⟨rfl, ?_, ?_, ?_, ?_⟩
  · intro l
    constructor
    · intro h
      unfold validate_outcomes at h
      split_ifs at h with hnil
      obtain ⟨hall, hsum⟩ := validate_go_true l 0 h
      exact ⟨hnil, hall, by omega⟩
    · rintro ⟨hne, hall, hsum⟩
      unfold validate_outcomes
      rw [if_neg hne, validate_go_eq l 0 hall, if_neg (by omega)]
  · intro l hne hall hsum
    unfold validate_outcomes
    rw [if_neg hne, validate_go_eq l 0 hall, if_pos (by omega)]
    have hz : (0 : Int) + sumW l = sumW l := by ring
    rw [hz]
  · intro l hne hall hsum
    unfold validate_outcomes
    rw [if_neg hne, validate_go_eq l 0 hall, if_neg (by omega)]
  · intro l
    unfold validate_outcomes
    split_ifs
    · decide
    · exact validate_go_snd_ne_empty l 0

/-- C2 witness: a weight total of 120 is rejected reporting 120; the
three-entry preset list summing to 100 is accepted; the empty list is
rejected. -/
theorem C2_validate_outcomes_witness :
    validate_outcomes [mkOutcome "a" 60, mkOutcome "b" 60]
      = (false, "Outcome weights must total 100 (currently 120).") ∧
    validate_outcomes [mkOutcome "powers, curse" 25, mkOutcome "powers, blessing" 25,
      mkOutcome "no powers" 50] = (true, "OK") := by
  constructor
  · have h := C2_validate_outcomes.2.2.1 [mkOutcome "a" 60, mkOutcome "b" 60]
      (by decide)
      (by
        intro o ho
        simp only [List.mem_cons, List.not_mem_nil, or_false] at ho
        rcases ho with rfl | rfl
        · exact ⟨"a", 60, rfl, rfl, by decide, by decide⟩
        · exact ⟨"b", 60, rfl, rfl, by decide, by decide⟩)
      (by decide)
    rw [h]
    rfl
  · exact C2_validate_outcomes.2.2.2.1
      [mkOutcome "powers, curse" 25, mkOutcome "powers, blessing" 25,
        mkOutcome "no powers" 50]
      (by decide)
      (by
        intro o ho
        simp only [List.mem_cons, List.not_mem_nil, or_false] at ho
        rcases ho with rfl | rfl | rfl
        · exact ⟨"powers, curse", 25, rfl, rfl, by decide, by decide⟩
        · exact ⟨"powers, blessing", 25, rfl, rfl, by decide, by decide⟩
        · exact ⟨"no powers", 50, rfl, rfl, by decide, by decide⟩)
      (by decide)

/-- C1: the weighted draw gives entry `i` the half-open interval
`[cumulative_before_i, cumulative_before_i + weight_i)`: whenever the sampled
`r` lies in entry `i`'s interval (weights non-negative), the loop returns
entry `i`'s name — so each `r` maps to exactly the one entry whose interval
contains it, with no gap or overlap.  On `[{A,25},{B,25},{C,50}]` every
integer `r` in `[0,100)` yields `A` for `r < 25`, `B` for `25 ≤ r < 50` and
`C` for `50 ≤ r < 100`. -/
theorem C1_weighted_choice_intervals :
    (∀ (l : List OutcomeDict) (r : Int) (i : Nat) (hi : i < l.length),
      (∀ o ∈ l, 0 ≤ entry_weight o) →
      cumBefore l i ≤ r →
      r < cumBefore l i + entry_weight (l.get ⟨i, hi⟩) →
      weighted_choice l r = some (entry_name (l.get ⟨i, hi⟩))) ∧
    (∀ r : Int, 0 ≤ r → r < 100 →
      weighted_choice exampleABC r =
        some (if r < 25 then "A" else if r < 50 then "B" else "C")) := by
  constructor
  · intro l r i hi hw hlo hhi
    have h := wc_loop_interval l 0 r i hi hw (by omega) (by omega)
    unfold weighted_choice
    rw [h]
  · intro r h0 h1
    have e0 : entry_weight (mkOutcome "A" 25) = 25 := rfl
    have e1 : entry_weight (mkOutcome "B" 25) = 25 := rfl
    have e2 : entry_weight (mkOutcome "C" 50) = 50 := rfl
    simp only [weighted_choice, wc_loop, exampleABC, e0, e1, e2]
    have n0 : entry_name (mkOutcome "A" 25) = "A" := rfl
    have n1 : entry_name (mkOutcome "B" 25) = "B" := rfl
    have n2 : entry_name (mkOutcome "C" 50) = "C" := rfl
    rw [n0, n1, n2]
    split_ifs <;> first | rfl | omega

/-- C1 witness: sampled values 0, 30 and 99 fall to `A`, `B` and `C`, and the
interval clause applied to entry 1 of the example at `r = 30`. -/
theorem C1_weighted_choice_intervals_witness :
    weighted_choice exampleABC 30 = some "B" ∧
    weighted_choice exampleABC 0 = some "A" ∧
    weighted_choice exampleABC 99 = some "C" := by
  refine ⟨?_, ?_, ?_⟩
  · have h := C1_weighted_choice_intervals.2 30 (by decide) (by decide)
    simpa using h
  · have h := C1_weighted_choice_intervals.2 0 (by decide) (by decide)
    simpa using h
  · have h := C1_weighted_choice_intervals.2 99 (by decide) (by decide)
    simpa using h

/-- C3: on any outcome list accepted by `validate_outcomes` and any sampled
`r` in `[0,100)`, the cumulative-sum loop of `weighted_choice` returns within
the loop, so the trailing `return outcomes[-1]["name"]` fallback is never
reached under validated input. -/
theorem C3_fallback_unreachable (l : List OutcomeDict) (r : Int)
    (hv : (validate_outcomes l).1 = true) (h0 : 0 ≤ r) (h1 : r < 100) :
    ∃ n, wc_loop r 0 l = some n ∧ weighted_choice l r = some n := by
  unfold validate_outcomes at hv
  split_ifs at hv with hnil
  obtain ⟨hall, hsum⟩ := validate_go_true l 0 hv
  cases hw : wc_loop r 0 l with
  | none =>
    have := wc_loop_none r l hnil 0 hw
    omega
  | some n =>
    refine ⟨n, rfl, ?_⟩
    unfold weighted_choice
    rw [hw]

/-- C3 witness: the preset table with `r = 73`. -/
theorem C3_fallback_unreachable_witness :
    ∃ n, wc_loop 73 0 exampleABC = some n ∧
      weighted_choice exampleABC 73 = some n :=
  C3_fallback_unreachable exampleABC 73 (by decide) (by decide) (by decide)

/-- C9: for any non-empty outcome list whose entries carry integer weights,
`weighted_choice` returns the name of some entry of the list (via the loop
or via the trailing fallback) for every sampled value; on the empty list it
produces no value at all (the `outcomes[-1]` fallback raises `IndexError`,
modelled by `none`). -/
theorem C9_weighted_choice_total :
    (∀ (l : List OutcomeDict) (r : Int), l ≠ [] →
      (∀ o ∈ l, ∃ w : Int, o.weight = some (PyVal.int w)) →
      ∃ o ∈ l, weighted_choice l r = some (entry_name o)) ∧
    (∀ r : Int, weighted_choice [] r = none) := by
  constructor
  · intro l r hne _
    unfold weighted_choice
    cases hw : wc_loop r 0 l with
    | some n =>
      obtain ⟨o, hm, he⟩ := wc_loop_mem r l n 0 hw
      exact ⟨o, hm, by rw [he]⟩
    | none =>
      refine ⟨l.getLast (by simpa using hne), List.getLast_mem _, ?_⟩
      rw [List.getLast?_eq_getLast l (by simpa using hne)]
      rfl
  · intro r; rfl

/-- C9 witness: a one-entry table whose weight does not reach the sample, so
the fallback fires and still returns an entry of the list. -/
theorem C9_weighted_choice_total_witness :
    ∃ o ∈ [mkOutcome "x" 3], weighted_choice [mkOutcome "x" 3] 50
      = some (entry_name o) :=
  C9_weighted_choice_total.1 [mkOutcome "x" 3] 50 (by decide)
    (by
      intro o ho
      simp only [List.mem_cons, List.not_mem_nil, or_false] at ho
      subst ho
      exact ⟨3, rfl⟩)

/-- C4: for a guild id absent from the mapping, two successive
`get_guild_config` calls return structurally equal default records — emoji
🎲, no channel bindings, the three preset outcomes totaling 100 — and
persist exactly once: the first call inserts and saves, the second is a
cache hit that changes nothing. -/
theorem C4_get_or_create_idempotent (st : Store) (gid : Int)
    (h : lookupCfg (guild_key gid) st.cfg = none) :
    (get_guild_config st gid).1 = default_guild_config ∧
    (get_guild_config (get_guild_config st gid).2 gid).1
      = (get_guild_config st gid).1 ∧
    (get_guild_config st gid).2.saves = st.saves + 1 ∧
    (get_guild_config (get_guild_config st gid).2 gid).2
      = (get_guild_config st gid).2 ∧
    default_guild_config.trigger_emoji = "🎲" ∧
    default_guild_config.trigger_message_id = none ∧
    default_guild_config.trigger_channel_id = none ∧
    default_guild_config.mod_channel_id = none ∧
    sumW default_guild_config.outcomes = 100 := by
  have h1 : get_guild_config st gid
      = (default_guild_config,
         { cfg := updateCfg (guild_key gid) default_guild_config st.cfg,
           saves := st.saves + 1 }) := by
    simp only [get_guild_config, h]
  have h2 : get_guild_config
      ({ cfg := updateCfg (guild_key gid) default_guild_config st.cfg,
         saves := st.saves + 1 } : Store) gid
      = (default_guild_config,
         { cfg := updateCfg (guild_key gid) default_guild_config st.cfg,
           saves := st.saves + 1 }) := by
    simp only [get_guild_config, lookupCfg_updateCfg_self]
  refine ⟨by rw [h1], ?_, by rw [h1], ?_, rfl, rfl, rfl, rfl, by decide⟩
  · rw [h1, h2]
  · rw [h1, h2]

/-- C4 witness: an empty store and guild id 1. -/
theorem C4_get_or_create_idempotent_witness :
    (get_guild_config ⟨[], 0⟩ 1).1 = default_guild_config ∧
    (get_guild_config (get_guild_config ⟨[], 0⟩ 1).2 1).1
      = (get_guild_config ⟨[], 0⟩ 1).1 ∧
    (get_guild_config ⟨[], 0⟩ 1).2.saves = 1 ∧
    (get_guild_config (get_guild_config ⟨[], 0⟩ 1).2 1).2
      = (get_guild_config ⟨[], 0⟩ 1).2 := by
  have h := C4_get_or_create_idempotent ⟨[], 0⟩ 1 rfl
  exact ⟨h.1, h.2.1, h.2.2.1, h.2.2.2.1⟩

/-- C8: `roll_d100` lands in `[1,100]` for every possible `randbelow(100)`
sample; it is a bijection from samples `[0,100)` onto `[1,100]` (each result
comes from exactly one sample, so a uniform sample gives a uniform result);
and in the dispatch pair the d100 value depends only on its own sample and
the outcome draw only on its own sample — the two draws are not derived from
one another.  (That the samples come from the `secrets` cryptographic source
is a property of the external library the code calls, modelled here by the
explicit sample parameters.) -/
theorem C8_roll_d100_range_independent :
    (∀ s : Nat, s < 100 → 1 ≤ roll_d100 s ∧ roll_d100 s ≤ 100) ∧
    (∀ v : Nat, 1 ≤ v → v ≤ 100 → ∃! s : Nat, s < 100 ∧ roll_d100 s = v) ∧
    (∀ (o : List OutcomeDict) (s1 s2 s2' : Nat),
      (dispatch_roll o s1 s2).1 = (dispatch_roll o s1 s2').1) ∧
    (∀ (o : List OutcomeDict) (s1 s1' s2 : Nat),
      (dispatch_roll o s1 s2).2 = (dispatch_roll o s1' s2).2) := by
  refine ⟨?_, ?_, ?_, ?_⟩
  · intro s hs
    unfold roll_d100
    omega
  · intro v h1 h2
    refine ⟨v - 1, ⟨by omega, ?_⟩, ?_⟩
    · unfold roll_d100; omega
    · intro y hy
      have := hy.2
      unfold roll_d100 at this
      omega
  · intro o s1 s2 s2'; rfl
  · intro o s1 s1' s2; rfl

/-- C8 witness: sample 41 rolls 42, and 42 is rolled by exactly one
sample. -/
theorem C8_roll_d100_range_independent_witness :
    (1 ≤ roll_d100 41 ∧ roll_d100 41 ≤ 100) ∧
    (∃! s : Nat, s < 100 ∧ roll_d100 s = 42) :=
  ⟨C8_roll_d100_range_independent.1 41 (by decide),
   C8_roll_d100_range_independent.2.1 42 (by decide) (by decide)⟩

/-- C10: any reaction event in a resolvable guild (from a user other than
the bot) whose guild has no stored config causes the default record to be
inserted and persisted once — the trigger-binding and emoji checks come
after `get_guild_config` — and no other guild's record is touched. -/
theorem C10_handler_creates_config (env : Env) (st : Store) (p : Payload)
    (s1 s2 : Nat) (gid : Int)
    (hg : guildResolve env p.guild_id = some gid)
    (hb : ¬(p.user_id = env.bot_user_id))
    (habs : lookupCfg (guild_key gid) st.cfg = none) :
    lookupCfg (guild_key gid) (on_raw_reaction_add env st p s1 s2).1.cfg
      = some default_guild_config ∧
    (on_raw_reaction_add env st p s1 s2).1.saves = st.saves + 1 ∧
    (∀ k : String, k ≠ guild_key gid →
      lookupCfg k (on_raw_reaction_add env st p s1 s2).1.cfg
        = lookupCfg k st.cfg) := by
  have hstep : on_raw_reaction_add env st p s1 s2
      = ({ cfg := updateCfg (guild_key gid) default_guild_config st.cfg,
           saves := st.saves + 1 }, []) := by
    unfold on_raw_reaction_add
    rw [if_neg hb, hg]
    simp [get_guild_config, habs, default_guild_config, truthyId]
  rw [hstep]
  refine ⟨lookupCfg_updateCfg_self _ _ _, rfl, ?_⟩
  intro k hk
  exact lookupCfg_updateCfg_ne _ _ _ _ hk

/-- C10 witness: a reaction in resolvable guild 5 with an empty store — the
default config is inserted and persisted although the event is ignored. -/
theorem C10_handler_creates_config_witness :
    lookupCfg (guild_key 5)
      (on_raw_reaction_add
        { bot_user_id := 0, guilds := fun _ => true, guild_name := fun _ => "g",
          member := fun _ _ => false, channel := fun _ _ => false,
          dm_ok := fun _ => false, fetch_msg := fun _ _ => none }
        ⟨[], 0⟩ ⟨7, some 5, 8, 9, "🎲"⟩ 0 0).1.cfg
      = some default_guild_config ∧
    (on_raw_reaction_add
        { bot_user_id := 0, guilds := fun _ => true, guild_name := fun _ => "g",
          member := fun _ _ => false, channel := fun _ _ => false,
          dm_ok := fun _ => false, fetch_msg := fun _ _ => none }
        ⟨[], 0⟩ ⟨7, some 5, 8, 9, "🎲"⟩ 0 0).1.saves = 1 := by
  have h := C10_handler_creates_config
    { bot_user_id := 0, guilds := fun _ => true, guild_name := fun _ => "g",
      member := fun _ _ => false, channel := fun _ _ => false,
      dm_ok := fun _ => false, fetch_msg := fun _ _ => none }
    ⟨[], 0⟩ ⟨7, some 5, 8, 9, "🎲"⟩ 0 0 5 rfl (by decide) rfl
  exact ⟨h.1, h.2.1⟩

/-- C5: `setodds` parses a semicolon-separated `name=weight` list and
validates it.  The example spec string parses to exactly the three expected
outcomes; `"a=60;b=60"` is rejected with the weight-mismatch reason naming
total 120; `"a=five"` is rejected with the malformed-entry reason; on any
parse or validation failure the reason is returned and the store — in
particular the guild's stored outcomes — is completely unchanged; on success
the guild's outcomes are replaced wholesale by the parsed list and the
change is persisted. -/
theorem C5_setodds_parse_validate (st : Store) (gid : Int) (odds : String) :
    (parse_odds "powers, curse=25; powers, blessing=25; no powers=50"
      = Except.ok [mkOutcome "powers, curse" 25, mkOutcome "powers, blessing" 25,
          mkOutcome "no powers" 50]) ∧
    (setodds (some gid) true st "a=60;b=60"
      = (st, "❌ Outcome weights must total 100 (currently 120).")) ∧
    (setodds (some gid) true st "a=five"
      = (st, "❌ Weight must be an integer: `a=five`")) ∧
    (∀ e, parse_odds odds = Except.error e →
      setodds (some gid) true st odds = (st, e)) ∧
    (∀ parsed, parse_odds odds = Except.ok parsed →
      (validate_outcomes parsed).1 = false →
      setodds (some gid) true st odds
        = (st, "❌ " ++ (validate_outcomes parsed).2)) ∧
    (∀ parsed, parse_odds odds = Except.ok parsed →
      (validate_outcomes parsed).1 = true →
      lookupCfg (guild_key gid) (setodds (some gid) true st odds).1.cfg
          = some { (get_guild_config st gid).1 with outcomes := parsed } ∧
        (setodds (some gid) true st odds).1.saves
          = (get_guild_config st gid).2.saves + 1) := by
  refine ⟨rfl, rfl, rfl, ?_, ?_, ?_⟩
  · intro e he
    unfold setodds
    simp only [he, Bool.not_true, Bool.false_eq_true, if_false]
  · intro parsed hp hv
    unfold setodds
    simp only [hp, hv, Bool.not_false, if_true, Bool.not_true, Bool.false_eq_true,
      if_false]
  · intro parsed hp hv
    unfold setodds
    simp only [hp, hv, Bool.not_true, Bool.false_eq_true, if_false]
    constructor
    · exact lookupCfg_updateCfg_self _ _ _
    · trivial

/-- C5 witness: a successful update on an empty store replaces the outcomes
wholesale and persists. -/
theorem C5_setodds_parse_validate_witness :
    lookupCfg (guild_key 1) (setodds (some 1) true ⟨[], 0⟩ "x=100").1.cfg
        = some { (get_guild_config ⟨[], 0⟩ 1).1 with
            outcomes := [mkOutcome "x" 100] } ∧
      (setodds (some 1) true ⟨[], 0⟩ "x=100").1.saves
        = (get_guild_config ⟨[], 0⟩ 1).2.saves + 1 :=
  (C5_setodds_parse_validate ⟨[], 0⟩ 1 "x=100").2.2.2.2.2
    [mkOutcome "x" 100] rfl rfl

/-- C6: the reaction handler produces no outward side effect — no direct
message, no moderator-log post, no reaction-removal attempt (and hence no
draw is reported anywhere) — when the reactor is the bot itself, when the
event has no resolvable guild, when the guild has no stored config (the
freshly created default has no trigger binding), when the trigger binding is
unset, when the message id or channel id does not exactly match the stored
binding, or when the rendered emoji text differs from the configured
trigger emoji. -/
theorem C6_handler_ignores (env : Env) (st : Store) (p : Payload) (s1 s2 : Nat)
    (h : p.user_id = env.bot_user_id
       ∨ guildResolve env p.guild_id = none
       ∨ (∃ gid, guildResolve env p.guild_id = some gid ∧
           (lookupCfg (guild_key gid) st.cfg = none
            ∨ (∃ g, lookupCfg (guild_key gid) st.cfg = some g ∧
                (truthyId g.trigger_message_id = false
                 ∨ truthyId g.trigger_channel_id = false
                 ∨ some p.message_id ≠ g.trigger_message_id
                 ∨ some p.channel_id ≠ g.trigger_channel_id
                 ∨ p.emoji ≠ g.trigger_emoji))))) :
    (on_raw_reaction_add env st p s1 s2).2 = [] := by
  by_contra hne
  obtain ⟨hbot, gid, hgr, g, hlk, h1, h2, h3, h4, h5⟩ :=
    handler_effects_inversion env st p s1 s2 hne
  rcases h with hb | hng | ⟨gid₂, hg₂, hcase⟩
  · exact hbot hb
  · rw [hng] at hgr; cases hgr
  · rw [hgr] at hg₂
    have hgid : gid = gid₂ := Option.some_inj.mp hg₂
    subst hgid
    rcases hcase with habs | ⟨g₂, hlk₂, hcond⟩
    · rw [habs] at hlk; cases hlk
    · rw [hlk] at hlk₂
      have hgg : g = g₂ := Option.some_inj.mp hlk₂
      subst hgg
      rcases hcond with hc | hc | hc | hc | hc
      · rw [h1] at hc; cases hc
      · rw [h2] at hc; cases hc
      · exact hc h3
      · exact hc h4
      · exact hc h5

/-- C6 witness: a reaction event carrying no guild id produces no side
effects. -/
theorem C6_handler_ignores_witness :
    (on_raw_reaction_add
      { bot_user_id := 0, guilds := fun _ => false, guild_name := fun _ => "g",
        member := fun _ _ => false, channel := fun _ _ => false,
        dm_ok := fun _ => false, fetch_msg := fun _ _ => none }
      ⟨[], 0⟩ ⟨1, none, 2, 3, "🎲"⟩ 0 0).2 = [] :=
  C6_handler_ignores
    { bot_user_id := 0, guilds := fun _ => false, guild_name := fun _ => "g",
      member := fun _ _ => false, channel := fun _ _ => false,
      dm_ok := fun _ => false, fetch_msg := fun _ _ => none }
    ⟨[], 0⟩ ⟨1, none, 2, 3, "🎲"⟩ 0 0 (Or.inr (Or.inl rfl))

/-- C7: `editrolllog` fails without editing any message when the guild has
no configured mod channel, when the mod channel does not resolve to a text
channel, when the message id is not numeric, when the message is not found
in the mod channel, or when the found message was not authored by the bot
itself (ownership check); only when every check passes is the message
edited to the new text. -/
theorem C7_editrolllog_checks (env : Env) (st : Store) (gid : Int)
    (message_id new_text : String) :
    (truthyId (get_guild_config st gid).1.mod_channel_id = false →
      editrolllog env (some gid) true st message_id new_text
        = ((get_guild_config st gid).2, none,
            "❌ Mod channel is not set. Use /setmodchannel.")) ∧
    (truthyId (get_guild_config st gid).1.mod_channel_id = true →
      env.channel gid ((get_guild_config st gid).1.mod_channel_id.getD 0) = false →
      editrolllog env (some gid) true st message_id new_text
        = ((get_guild_config st gid).2, none, "❌ Mod channel not found.")) ∧
    (truthyId (get_guild_config st gid).1.mod_channel_id = true →
      env.channel gid ((get_guild_config st gid).1.mod_channel_id.getD 0) = true →
      pyIntParse message_id = none →
      editrolllog env (some gid) true st message_id new_text
        = ((get_guild_config st gid).2, none, "❌ message_id must be a number.")) ∧
    (∀ mid : Int,
      truthyId (get_guild_config st gid).1.mod_channel_id = true →
      env.channel gid ((get_guild_config st gid).1.mod_channel_id.getD 0) = true →
      pyIntParse message_id = some mid →
      env.fetch_msg ((get_guild_config st gid).1.mod_channel_id.getD 0) mid = none →
      editrolllog env (some gid) true st message_id new_text
        = ((get_guild_config st gid).2, none,
            "❌ That message ID wasn\x27t found in the mod channel.")) ∧
    (∀ (mid : Int) (m : Message),
      truthyId (get_guild_config st gid).1.mod_channel_id = true →
      env.channel gid ((get_guild_config st gid).1.mod_channel_id.getD 0) = true →
      pyIntParse message_id = some mid →
      env.fetch_msg ((get_guild_config st gid).1.mod_channel_id.getD 0) mid = some m →
      m.author_id ≠ env.bot_user_id →
      editrolllog env (some gid) true st message_id new_text
        = ((get_guild_config st gid).2, none,
            "❌ I can only edit my own log messages.")) ∧
    (∀ (mid : Int) (m : Message),
      truthyId (get_guild_config st gid).1.mod_channel_id = true →
      env.channel gid ((get_guild_config st gid).1.mod_channel_id.getD 0) = true →
      pyIntParse message_id = some mid →
      env.fetch_msg ((get_guild_config st gid).1.mod_channel_id.getD 0) mid = some m →
      m.author_id = env.bot_user_id →
      editrolllog env (some gid) true st message_id new_text
        = ((get_guild_config st gid).2, some (mid, new_text),
            "✅ Edited the roll log message.")) := by
  refine ⟨?_, ?_, ?_, ?_, ?_, ?_⟩
  · intro hmc
    simp [editrolllog, hmc]
  · intro hmc hch
    simp [editrolllog, hmc, hch]
  · intro hmc hch hpi
    simp [editrolllog, hmc, hch, hpi]
  · intro mid hmc hch hpi hf
    simp [editrolllog, hmc, hch, hpi, hf]
  · intro mid m hmc hch hpi hf hne
    simp [editrolllog, hmc, hch, hpi, hf, hne]
  · intro mid m hmc hch hpi hf heq
    simp [editrolllog, hmc, hch, hpi, hf, heq]

/-- C7 witness: with a configured, resolvable mod channel, a numeric id, a
found message authored by the bot, the edit goes through; the same setup
with a foreign author is rejected without an edit. -/
theorem C7_editrolllog_checks_witness :
    editrolllog
      { bot_user_id := 0, guilds := fun _ => true, guild_name := fun _ => "g",
        member := fun _ _ => false, channel := fun _ _ => true,
        dm_ok := fun _ => true, fetch_msg := fun _ _ => some ⟨0, "old"⟩ }
      (some 1) true
      ⟨[(guild_key 1, { default_guild_config with mod_channel_id := some 5 })], 0⟩
      "42" "fixed"
      = ((get_guild_config
            ⟨[(guild_key 1, { default_guild_config with mod_channel_id := some 5 })], 0⟩
            1).2,
         some (42, "fixed"), "✅ Edited the roll log message.") :=
  (C7_editrolllog_checks
    { bot_user_id := 0, guilds := fun _ => true, guild_name := fun _ => "g",
      member := fun _ _ => false, channel := fun _ _ => true,
      dm_ok := fun _ => true, fetch_msg := fun _ _ => some ⟨0, "old"⟩ }
    ⟨[(guild_key 1, { default_guild_config with mod_channel_id := some 5 })], 0⟩
    1 "42" "fixed").2.2.2.2.2 42 ⟨0, "old"⟩ (by decide) rfl (by decide) rfl rfl

end DiceBot
